import Mathlib

/-!
Shallow embedding of the technician-booking frontend (a Next.js/React
client).  The embedding models:

* the JavaScript string primitives the client uses (`split` with a
  single-character separator, `trim`, `startsWith`) as executable functions
  on `List Char`;
* the chat submit handler `handleSend` in its two observed variants: the
  variant of `src/frontend/src/components/Chat.tsx` (shared by the other
  non-preserving chat components), and the input-preserving variant of
  `src/unnamed/part_000`;
* the message renderer `renderChatMessage` of both chat components;
* the cookie accessor `safeGetToken`, the logout handler `handleLogout`
  together with the browser cookie-jar semantics it relies on, and the
  routing `middleware` of `src/frontend/src/middleware.ts`.
-/

/-- Whitespace predicate backing the embedding of JavaScript `trim`. -/
def jsWhitespace (c : Char) : Bool := c.isWhitespace

/-- Model of JavaScript `String.prototype.split` with a single-character
separator, on character lists: splitting the empty string yields `[""]`,
and separators at either end produce empty segments, as in JavaScript. -/
def jsSplitChars (sep : Char) : List Char → List (List Char)
  | [] => [[]]
  | c :: cs =>
    match jsSplitChars sep cs with
    | [] => [[c]]
    | r :: rs => if c = sep then [] :: r :: rs else (c :: r) :: rs

/-- Model of JavaScript `String.prototype.trim` on character lists: drop
leading and trailing whitespace. -/
def jsTrimChars (cs : List Char) : List Char :=
  ((cs.dropWhile jsWhitespace).reverse.dropWhile jsWhitespace).reverse

/-- Model of JavaScript `String.prototype.startsWith` on character lists. -/
def jsStartsWithChars (p cs : List Char) : Bool := p.isPrefixOf cs

/-- Details payload of a chat message (`ChatMessageDetails` in
`src/frontend/src/components/Chat.tsx`); every field is optional. -/
structure ChatMessageDetails where
  id : Option Int
  service : Option String
  technician : Option String
  datetime : Option String
deriving DecidableEq, Repr

/-- Chat message of the conversation log (`ChatMessage` in
`src/frontend/src/components/Chat.tsx`).  The `messageType` field is kept
as a string because the value received from the server is copied into it
without runtime validation. -/
structure ChatMessage where
  sender : String
  text : Option String
  messageType : String
  details : Option ChatMessageDetails
deriving DecidableEq, Repr

/-- Initial conversation log (the `useState` initialiser of `messages`). -/
def initialMessages : List ChatMessage :=
  [⟨"System", some "Hello! How can I help you today?", "text", none⟩]

/-- Fallback message appended on the catch path of `handleSend`. -/
def errorFallbackMessage : ChatMessage :=
  ⟨"System", some "Error processing request.", "error", none⟩

/-- User message `handleSend` constructs from the current input. -/
def userMessage (input : String) : ChatMessage :=
  ⟨"User", some input, "text", none⟩

/-- Outcome of the awaited `fetch`/`response.json()` pipeline inside
`handleSend`, as observable by the client code:

* `transportError`: the `fetch` call itself rejects;
* `bodyNotJson`: a response arrives (with the given status code) but
  `response.json()` rejects because the body is not JSON;
* `noEnvelope`: the body is JSON but carries no `response` object, so the
  access `data.response.text` throws;
* `envelope`: the body parses and `data.response` is an object, carrying
  the observed `text`, `message_type` and `details` fields.

The status code is recorded where a response exists; the handler never
reads it. -/
inductive ServerResult where
  | transportError : ServerResult
  | bodyNotJson (status : Nat) : ServerResult
  | noEnvelope (status : Nat) : ServerResult
  | envelope (status : Nat) (text : Option String) (message_type : String)
      (details : Option ChatMessageDetails) : ServerResult
deriving DecidableEq, Repr

/-- System message appended once the round trip resolves: the success path
copies the envelope fields verbatim; every other outcome lands in the
catch block, which appends `errorFallbackMessage`. -/
def responseMessage : ServerResult → ChatMessage
  | .envelope _ text mt d => ⟨"System", text, mt, d⟩
  | _ => errorFallbackMessage

/-- Client state touched by `handleSend`: the controlled input field and the
conversation log. -/
structure ChatState where
  input : String
  messages : List ChatMessage
deriving DecidableEq, Repr

/-- Result of one submission: the final state and, when a request was
issued, the `message` field of the JSON body that was POSTed. -/
structure SendOutcome where
  state : ChatState
  requestBody : Option String
deriving DecidableEq, Repr

/-- Emptiness guard `if (!input.trim()) return;` of `handleSend`. -/
def trimmedEmpty (s : String) : Bool := jsTrimChars s.data == []

/-- State after the optimistic append of the User message, before the
network call resolves (both handler variants append the same User
message at this point). -/
def handleSendPending (st : ChatState) : ChatState :=
  ⟨st.input, st.messages ++ [userMessage st.input]⟩

/-- Submit handler of `src/frontend/src/components/Chat.tsx` (the same
logic appears in the chat components of `src/unnamed/part_001` and
`src/unnamed/part_002`): guard on trimmed-empty input, append the User
message, await the round trip, append the System message (or the fallback
on the catch path), then clear the input. -/
def handleSend (st : ChatState) (res : ServerResult) : SendOutcome :=
  if trimmedEmpty st.input then ⟨st, none⟩
  else
    ⟨⟨"", (handleSendPending st).messages ++ [responseMessage res]⟩, some st.input⟩

/-- Submit handler of the markdown-capable chat variant
(`src/unnamed/part_000`): same guard and optimistic append, but the input
is cleared immediately after sending and restored from `previousInput` on
the catch path. -/
def handleSendPreserving (st : ChatState) (res : ServerResult) : SendOutcome :=
  if trimmedEmpty st.input then ⟨st, none⟩
  else
    let previousInput := st.input
    let afterUser := st.messages ++ [userMessage previousInput]
    match res with
    | .envelope _ text mt d =>
        ⟨⟨"", afterUser ++ [⟨"System", text, mt, d⟩]⟩, some previousInput⟩
    | _ =>
        ⟨⟨previousInput, afterUser ++ [errorFallbackMessage]⟩, some previousInput⟩

/-- Renderable fragments produced by the chat renderers: a markdown block,
a plain text line, or a labelled booking field. -/
inductive Rendered where
  | markdownBlock (md : String) : Rendered
  | textLine (s : String) : Rendered
  | labeledField (label : String) (value : String) : Rendered
deriving DecidableEq, Repr

/-- JSX interpolation of an optional string: `undefined` renders nothing. -/
def jsxText (o : Option String) : String := o.getD ""

/-- JSX interpolation of an optional number: `undefined` renders nothing. -/
def jsxInt (o : Option Int) : String :=
  match o with
  | some n => toString n
  | none => ""

/-- Four labelled booking fields, in the order they appear in the JSX of
both chat components. -/
def bookingFields (d : ChatMessageDetails) : List Rendered :=
  [.labeledField "Service ID" (jsxInt d.id),
   .labeledField "Service" (jsxText d.service),
   .labeledField "Technician" (jsxText d.technician),
   .labeledField "Date/Time" (jsxText d.datetime)]

/-- Renderer of `src/unnamed/part_000`: markdown messages render as one
markdown block; `booking_details` messages with a details object render
the lead-in text line followed by the four fields; everything else renders
the plain text line. -/
def renderChatMessage (msg : ChatMessage) : List Rendered :=
  if msg.messageType = "markdown" then
    [.markdownBlock (jsxText msg.text)]
  else if msg.messageType = "booking_details" then
    match msg.details with
    | some d => .textLine (jsxText msg.text) :: bookingFields d
    | none => [.textLine (jsxText msg.text)]
  else
    [.textLine (jsxText msg.text)]

/-- Renderer of `src/frontend/src/components/Chat.tsx`: the text line is
always emitted; the four booking fields follow when the type is
`booking_details` and a details object is present. -/
def renderChatMessageBasic (msg : ChatMessage) : List Rendered :=
  .textLine (jsxText msg.text) ::
    (if msg.messageType = "booking_details" then
      match msg.details with
      | some d => bookingFields d
      | none => []
    else [])

/-- Check whether a render output contains a labelled field with the given
label. -/
def hasLabel (label : String) (rs : List Rendered) : Bool :=
  rs.any (fun r =>
    match r with
    | .labeledField l _ => l == label
    | _ => false)

/-- Details object with every field undefined (the JSON literal `{}`). -/
def emptyDetails : ChatMessageDetails := ⟨none, none, none, none⟩

/-- Message invariant stated in the spec's data model: a message of type
`booking_details` carries a non-empty `details`, and a message of type
`error` carries no `details`. -/
def msgInvariant (m : ChatMessage) : Bool :=
  (if m.messageType = "booking_details" then
    match m.details with
    | some d => d != emptyDetails
    | none => false
  else true)
  && (if m.messageType = "error" then m.details == none else true)

/-- Hypothesis on a server result: the System message it gives rise to
respects the spec's message invariant.  For the three failure outcomes
this holds unconditionally (the fallback error message carries no
details); for an envelope it constrains the server-sent fields. -/
def serverResultOk (res : ServerResult) : Bool := msgInvariant (responseMessage res)

/-- Browser cookie jar: an ordered list of name–value pairs. -/
abbrev CookieJar := List (String × String)

/-- Browser semantics of the cookie assignment performed by logout
(`document.cookie = "token=; path=/; expires=Thu, 01 Jan 1970 00:00:00
GMT"`): writing a cookie whose expiry date lies in the past removes every
cookie of that name from the jar. -/
def expireCookie (name : String) (jar : CookieJar) : CookieJar :=
  jar.filter (fun c => c.1 != name)

/-- Characters of one serialised cookie entry, `name=value`. -/
def cookiePairChars (c : String × String) : List Char :=
  c.1.data ++ '=' :: c.2.data

/-- Browser serialisation of the jar as read back from `document.cookie`:
entries joined with "; ". -/
def serializeJarChars : CookieJar → List Char
  | [] => []
  | [c] => cookiePairChars c
  | c :: cs => cookiePairChars c ++ ';' :: ' ' :: serializeJarChars cs

/-- String form of the serialised jar. -/
def serializeJar (jar : CookieJar) : String := ⟨serializeJarChars jar⟩

/-- Cookie accessor `safeGetToken` of the dashboard page
(`src/frontend/src/app/(dashboard)/dashboard/page.tsx`): split
`document.cookie` on ";", find the first entry whose trimmed form starts
with "token=", and return that entry's segment after its first "="
(`tokenCookie.split("=")[1]`); `null` when no entry matches. -/
def safeGetToken (cookie : String) : Option String :=
  let cookies := jsSplitChars ';' cookie.data
  match cookies.find? (fun c => jsStartsWithChars "token=".data (jsTrimChars c)) with
  | some tokenCookie => ((jsSplitChars '=' tokenCookie)[1]?).map List.asString
  | none => none

/-- Request data read by the routing middleware: presence of the
`x-middleware-prefetch` header, the `token` request cookie, and the
pathname. -/
structure MiddlewareRequest where
  prefetchHeader : Bool
  tokenCookie : Option String
  pathname : String
deriving DecidableEq, Repr

/-- Result of the routing middleware. -/
inductive MiddlewareResult where
  | next : MiddlewareResult
  | redirect (url : String) : MiddlewareResult
deriving DecidableEq, Repr

/-- Routing middleware of `src/frontend/src/middleware.ts`: prefetch
requests pass through; `/dashboard` paths without a token cookie redirect
to "/"; the root path with a token redirects to "/dashboard". -/
def middleware (r : MiddlewareRequest) : MiddlewareResult :=
  if r.prefetchHeader then .next
  else if r.tokenCookie.isNone && jsStartsWithChars "/dashboard".data r.pathname.data then
    .redirect "/"
  else if r.tokenCookie.isSome && r.pathname == "/" then
    .redirect "/dashboard"
  else .next

/-- Cookie lookup performed by `request.cookies.get("token")` on the
request's cookie jar. -/
def jarGet (name : String) (jar : CookieJar) : Option String :=
  (jar.find? (fun c => c.1 == name)).map (fun c => c.2)

/-- Dashboard page state touched by `handleLogout`: the browser cookie jar
and the current route. -/
structure DashboardEnv where
  jar : CookieJar
  route : String
deriving DecidableEq, Repr

/-- Logout handler of the dashboard page: assign the immediately-expired
`token` cookie scoped to path "/" (which the browser interprets by
deleting the cookie) and navigate to "/". -/
def handleLogout (env : DashboardEnv) : DashboardEnv :=
  ⟨expireCookie "token" env.jar, "/"⟩

/-- Well-formed cookie name: non-empty, and free of "=", ";" and
whitespace. -/
def validCookieName (n : String) : Bool :=
  !n.data.isEmpty && n.data.all (fun c => c != '=' && c != ';' && !jsWhitespace c)

/-- Well-formed cookie value: free of ";". -/
def validCookieValue (v : String) : Bool := v.data.all (fun c => c != ';')

/-- Well-formed cookie jar: every entry has a valid name and value. -/
def wfJar (jar : CookieJar) : Bool :=
  jar.all (fun c => validCookieName c.1 && validCookieValue c.2)

/-! ### Basic facts about the handlers -/

/-- Both handler variants append the same final log on every outcome. -/
theorem handleSend_messages_eq (st : ChatState) (res : ServerResult)
    (h : trimmedEmpty st.input = false) :
    (handleSend st res).state.messages
      = st.messages ++ [userMessage st.input, responseMessage res]
    ∧ (handleSendPreserving st res).state.messages
      = st.messages ++ [userMessage st.input, responseMessage res] := by
  cases res <;>
    simp [handleSend, handleSendPreserving, handleSendPending, responseMessage, h]

/-- The resolved System message always has sender "System". -/
theorem responseMessage_sender (res : ServerResult) :
    (responseMessage res).sender = "System" := by
  cases res <;> rfl

/-! ### Claims about the submit handler -/

/-- C1: for every input whose trim is non-empty, one submission appends
exactly one User message before the network call resolves and exactly one
System message after it resolves, on the success path and on the error
path alike, so the log grows by exactly 2.  Proved for both handler
variants. -/
theorem handleSend_appends_exactly_two (st : ChatState) (res : ServerResult)
    (h : trimmedEmpty st.input = false) :
    (handleSendPending st).messages = st.messages ++ [userMessage st.input]
    ∧ (userMessage st.input).sender = "User"
    ∧ (handleSend st res).state.messages
        = (handleSendPending st).messages ++ [responseMessage res]
    ∧ (handleSendPreserving st res).state.messages
        = (handleSendPending st).messages ++ [responseMessage res]
    ∧ (responseMessage res).sender = "System"
    ∧ (handleSend st res).state.messages.length = st.messages.length + 2
    ∧ (handleSendPreserving st res).state.messages.length = st.messages.length + 2 := by
  obtain ⟨h1, h2⟩ := handleSend_messages_eq st res h
  refine ⟨rfl, rfl, ?_, ?_, responseMessage_sender res, ?_, ?_⟩ <;>
    simp [h1, h2, handleSendPending]

/-- Witness for C1 at a concrete state and a concrete transport failure. -/
theorem handleSend_appends_exactly_two_witness :
    trimmedEmpty " hi " = false
    ∧ (handleSend ⟨" hi ", initialMessages⟩ ServerResult.transportError).state.messages.length
        = initialMessages.length + 2 :=
  ⟨by decide,
   (handleSend_appends_exactly_two ⟨" hi ", initialMessages⟩ ServerResult.transportError
      (by decide)).2.2.2.2.2.1⟩

/-- C2: for empty or whitespace-only input, submission is a no-op in both
variants: the state (log and input field) is unchanged and no request is
issued (`requestBody = none`). -/
theorem handleSend_empty_noop (st : ChatState) (res : ServerResult)
    (h : trimmedEmpty st.input = true) :
    handleSend st res = ⟨st, none⟩
    ∧ handleSendPreserving st res = ⟨st, none⟩ := by
  cases res <;> simp [handleSend, handleSendPreserving, h]

/-- Witness for C2 at a whitespace-only input. -/
theorem handleSend_empty_noop_witness :
    trimmedEmpty "  \t " = true
    ∧ handleSend ⟨"  \t ", initialMessages⟩ ServerResult.transportError
        = ⟨⟨"  \t ", initialMessages⟩, none⟩ :=
  ⟨by decide,
   (handleSend_empty_noop ⟨"  \t ", initialMessages⟩ ServerResult.transportError (by decide)).1⟩

/-- C3 counterexample: a non-2xx response (status 500) whose body is a
well-formed envelope is not treated as an error — the handler never reads
`response.ok`/`status`, so the appended System message carries the
envelope's own `message_type` ("text"), not type `error` with the
fallback text. -/
theorem handleSend_non2xx_envelope_not_error :
    (handleSend ⟨"hi", initialMessages⟩
        (ServerResult.envelope 500 (some "Internal Server Error") "text" none)).state.messages
      = initialMessages
          ++ [userMessage "hi", ⟨"System", some "Internal Server Error", "text", none⟩]
    ∧ ((handleSend ⟨"hi", initialMessages⟩
        (ServerResult.envelope 500 (some "Internal Server Error") "text" none)).state.messages.getLastD
          errorFallbackMessage).messageType = "text" := by
  constructor <;> decide

/-- C3 (amended): for every submission whose body is malformed — the body
is not JSON, or the parsed JSON lacks the `response` envelope — the client
appends a System message of type `error` with the fixed fallback text, and
the input-preserving variant restores the unsent input; a non-2xx status
with a well-formed envelope body is not treated as an error. -/
theorem handleSend_malformed_body_error (st : ChatState) (status : Nat)
    (res : ServerResult) (h : trimmedEmpty st.input = false)
    (hres : res = ServerResult.bodyNotJson status ∨ res = ServerResult.noEnvelope status) :
    (handleSend st res).state.messages
      = st.messages ++ [userMessage st.input, errorFallbackMessage]
    ∧ (handleSend st res).state.input = ""
    ∧ (handleSendPreserving st res).state.messages
      = st.messages ++ [userMessage st.input, errorFallbackMessage]
    ∧ (handleSendPreserving st res).state.input = st.input
    ∧ errorFallbackMessage.messageType = "error"
    ∧ errorFallbackMessage.text = some "Error processing request." := by
  rcases hres with rfl | rfl <;>
    simp [handleSend, handleSendPreserving, handleSendPending, responseMessage, h,
      errorFallbackMessage]

/-- Witness for C3's amended theorem at a concrete malformed-body outcome. -/
theorem handleSend_malformed_body_error_witness :
    trimmedEmpty "hello" = false
    ∧ (handleSendPreserving ⟨"hello", initialMessages⟩ (ServerResult.noEnvelope 500)).state.input
        = "hello" :=
  ⟨by decide,
   (handleSend_malformed_body_error ⟨"hello", initialMessages⟩ 500
      (ServerResult.noEnvelope 500) (by decide) (Or.inr rfl)).2.2.2.1⟩

/-- C4: a transport failure (the fetch rejects) appends exactly one System
message of type `error` with text "Error processing request.", in both
variants; the input-preserving variant repopulates the input field with
the original submitted text, while the basic variant clears it. -/
theorem handleSend_transport_error (st : ChatState)
    (h : trimmedEmpty st.input = false) :
    (handleSend st ServerResult.transportError).state.messages
      = st.messages ++ [userMessage st.input, errorFallbackMessage]
    ∧ (handleSendPreserving st ServerResult.transportError).state.messages
      = st.messages ++ [userMessage st.input, errorFallbackMessage]
    ∧ (handleSendPreserving st ServerResult.transportError).state.input = st.input
    ∧ (handleSend st ServerResult.transportError).state.input = ""
    ∧ errorFallbackMessage
        = ⟨"System", some "Error processing request.", "error", none⟩ := by
  simp [handleSend, handleSendPreserving, handleSendPending, responseMessage, h,
    errorFallbackMessage]

/-- Witness for C4 at a concrete state. -/
theorem handleSend_transport_error_witness :
    trimmedEmpty "book a plumber" = false
    ∧ (handleSendPreserving ⟨"book a plumber", initialMessages⟩
          ServerResult.transportError).state.input = "book a plumber" :=
  ⟨by decide,
   (handleSend_transport_error ⟨"book a plumber", initialMessages⟩ (by decide)).2.2.1⟩

/-- C5: the conversation log is append-only — in both handler variants,
every submission either leaves the log unchanged or extends it at the end,
so every prior log state (including the intermediate state holding the
optimistic User message) is a prefix of every later log state, and no
message is mutated or removed. -/
theorem log_append_only (st : ChatState) (res : ServerResult) :
    st.messages <+: (handleSendPending st).messages
    ∧ st.messages <+: (handleSend st res).state.messages
    ∧ st.messages <+: (handleSendPreserving st res).state.messages
    ∧ (trimmedEmpty st.input = false →
        (handleSendPending st).messages <+: (handleSend st res).state.messages
        ∧ (handleSendPending st).messages <+: (handleSendPreserving st res).state.messages) := by
  by_cases h : trimmedEmpty st.input = true
  · refine ⟨List.prefix_append _ _, ?_, ?_, fun hf => absurd h (by simp [hf])⟩ <;>
      cases res <;> simp [handleSend, handleSendPreserving, h]
  · rw [Bool.not_eq_true] at h
    obtain ⟨h1, h2⟩ := handleSend_messages_eq st res h
    rw [h1, h2]
    refine ⟨List.prefix_append _ _, ?_, ?_, fun _ => ⟨?_, ?_⟩⟩ <;>
      simp [handleSendPending, userMessage]

/-- Witness for C5's conditional conjunct at a concrete non-empty input. -/
theorem log_append_only_witness :
    trimmedEmpty "hey" = false
    ∧ (handleSendPending ⟨"hey", initialMessages⟩).messages <+:
        (handleSend ⟨"hey", initialMessages⟩ ServerResult.transportError).state.messages :=
  ⟨by decide,
   ((log_append_only ⟨"hey", initialMessages⟩ ServerResult.transportError).2.2.2
      (by decide)).1⟩

/-- C6 counterexample: the server can answer with `message_type =
"booking_details"` and no `details`, and the client copies both fields
verbatim into the appended System message, so the appended message
violates the spec's invariant (a `booking_details` message must carry
non-empty details). -/
theorem booking_details_envelope_copied_unvalidated :
    (handleSend ⟨"book", initialMessages⟩
        (ServerResult.envelope 200 (some "Booked!") "booking_details" none)).state.messages.getLastD
        errorFallbackMessage
      = ⟨"System", some "Booked!", "booking_details", none⟩
    ∧ msgInvariant ⟨"System", some "Booked!", "booking_details", none⟩ = false := by
  constructor <;> decide

/-- C6 (amended): every message the client itself constructs (the initial
greeting, User messages, the fallback error message) satisfies the spec's
invariant, and every message appended by a submission satisfies it
provided the System message mirrored from the server's envelope satisfies
it — the client performs no validation of its own, so the invariant holds
for envelope-built messages only when the server respects it. -/
theorem appended_messages_respect_invariant (st : ChatState) (res : ServerResult)
    (hres : serverResultOk res = true) :
    ((handleSend st res).state.messages.drop st.messages.length).all msgInvariant = true
    ∧ ((handleSendPreserving st res).state.messages.drop st.messages.length).all
        msgInvariant = true
    ∧ initialMessages.all msgInvariant = true := by
  by_cases h : trimmedEmpty st.input = true
  · refine ⟨?_, ?_, by decide⟩ <;>
      cases res <;> simp [handleSend, handleSendPreserving, h]
  · rw [Bool.not_eq_true] at h
    obtain ⟨h1, h2⟩ := handleSend_messages_eq st res h
    have hu : msgInvariant (userMessage st.input) = true := by
      simp [msgInvariant, userMessage]
    have hr : msgInvariant (responseMessage res) = true := hres
    refine ⟨?_, ?_, by decide⟩
    · rw [h1, List.drop_left]
      simp [List.all_cons, hu, hr]
    · rw [h2, List.drop_left]
      simp [List.all_cons, hu, hr]

/-- Witness for C6's amended theorem at a concrete invariant-respecting
envelope. -/
theorem appended_messages_respect_invariant_witness :
    serverResultOk (ServerResult.envelope 200 (some "Here you go") "booking_details"
        (some ⟨some 1, some "Gardener", some "John Doe", some "2022-10-20T17:00:00"⟩)) = true
    ∧ ((handleSend ⟨"show my booking", initialMessages⟩
          (ServerResult.envelope 200 (some "Here you go") "booking_details"
            (some ⟨some 1, some "Gardener", some "John Doe",
              some "2022-10-20T17:00:00"⟩))).state.messages.drop
          initialMessages.length).all msgInvariant = true :=
  ⟨by decide,
   (appended_messages_respect_invariant ⟨"show my booking", initialMessages⟩
      (ServerResult.envelope 200 (some "Here you go") "booking_details"
        (some ⟨some 1, some "Gardener", some "John Doe", some "2022-10-20T17:00:00"⟩))
      (by decide)).1⟩

/-- C7 counterexample: a message of type `booking_details` whose `details`
is absent renders no labelled field at all in either renderer — the JSX
guards on `msg.details` being truthy — so the claim's unconditional "four
labeled fields for every booking_details message" fails. -/
theorem booking_details_without_details_renders_no_fields :
    renderChatMessage ⟨"System", some "Your booking", "booking_details", none⟩
      = [Rendered.textLine "Your booking"]
    ∧ hasLabel "Service ID"
        (renderChatMessage ⟨"System", some "Your booking", "booking_details", none⟩) = false
    ∧ hasLabel "Service ID"
        (renderChatMessageBasic ⟨"System", some "Your booking", "booking_details", none⟩)
      = false := by
  refine ⟨?_, ?_, ?_⟩ <;> decide

/-- C7 (amended): for every message of type `booking_details` that carries
a details object, both renderers emit the free-text lead-in line followed
by exactly the four labelled fields Service ID, Service, Technician,
Date/Time, in that fixed order, with the label present (and a blank value)
whenever the corresponding field is undefined; in particular the claim's
round-trip example renders those four labels with those exact values in
that order. -/
theorem render_booking_details_fields (sender : String) (text : Option String)
    (d : ChatMessageDetails) :
    renderChatMessage ⟨sender, text, "booking_details", some d⟩
      = [Rendered.textLine (jsxText text),
         Rendered.labeledField "Service ID" (jsxInt d.id),
         Rendered.labeledField "Service" (jsxText d.service),
         Rendered.labeledField "Technician" (jsxText d.technician),
         Rendered.labeledField "Date/Time" (jsxText d.datetime)]
    ∧ renderChatMessageBasic ⟨sender, text, "booking_details", some d⟩
      = [Rendered.textLine (jsxText text),
         Rendered.labeledField "Service ID" (jsxInt d.id),
         Rendered.labeledField "Service" (jsxText d.service),
         Rendered.labeledField "Technician" (jsxText d.technician),
         Rendered.labeledField "Date/Time" (jsxText d.datetime)]
    ∧ renderChatMessage ⟨"System", some "Here are your booking details:", "booking_details",
          some ⟨some 1, some "Gardener", some "John Doe", some "2022-10-20T17:00:00"⟩⟩
      = [Rendered.textLine "Here are your booking details:",
         Rendered.labeledField "Service ID" "1",
         Rendered.labeledField "Service" "Gardener",
         Rendered.labeledField "Technician" "John Doe",
         Rendered.labeledField "Date/Time" "2022-10-20T17:00:00"] := by
  refine ⟨?_, ?_, by decide⟩ <;>
    simp [renderChatMessage, renderChatMessageBasic, bookingFields]

/-- C10: for every submission with non-whitespace input, the appended User
message has sender "User", type "text", and text equal to the original
untrimmed input, the POSTed body's `message` field carries that same
untrimmed string (in both variants), and no message appended by the
submission is a User message of any type other than "text". -/
theorem user_message_shape (st : ChatState) (res : ServerResult)
    (h : trimmedEmpty st.input = false) :
    (handleSend st res).requestBody = some st.input
    ∧ (handleSendPreserving st res).requestBody = some st.input
    ∧ (handleSend st res).state.messages.drop st.messages.length
        = [userMessage st.input, responseMessage res]
    ∧ userMessage st.input = ⟨"User", some st.input, "text", none⟩
    ∧ ((handleSend st res).state.messages.drop st.messages.length).all
        (fun m => m.sender != "User" || m.messageType == "text") = true
    ∧ ((handleSendPreserving st res).state.messages.drop st.messages.length).all
        (fun m => m.sender != "User" || m.messageType == "text") = true := by
  obtain ⟨h1, h2⟩ := handleSend_messages_eq st res h
  have hsys := responseMessage_sender res
  refine ⟨?_, ?_, ?_, rfl, ?_, ?_⟩
  · cases res <;> simp [handleSend, h]
  · cases res <;> simp [handleSendPreserving, h]
  · rw [h1, List.drop_left]
  · rw [h1, List.drop_left]
    simp [List.all_cons, userMessage, hsys]
  · rw [h2, List.drop_left]
    simp [List.all_cons, userMessage, hsys]

/-- Witness for C10 at a concrete padded input: the untrimmed text is kept
in the User message and in the request body. -/
theorem user_message_shape_witness :
    trimmedEmpty "  hi there  " = false
    ∧ (handleSend ⟨"  hi there  ", initialMessages⟩
          (ServerResult.envelope 200 (some "ok") "text" none)).requestBody
        = some "  hi there  " :=
  ⟨by decide,
   (user_message_shape ⟨"  hi there  ", initialMessages⟩
      (ServerResult.envelope 200 (some "ok") "text" none) (by decide)).1⟩

/-! ### Facts about the embedded JavaScript string primitives -/

/-- Splitting never yields the empty list of segments. -/
theorem jsSplitChars_ne_nil (sep : Char) (cs : List Char) :
    jsSplitChars sep cs ≠ [] := by
  induction cs with
  | nil => simp [jsSplitChars]
  | cons c cs ih =>
    cases h : jsSplitChars sep cs with
    | nil => exact absurd h ih
    | cons r rs => by_cases hc : c = sep <;> simp [jsSplitChars, h, hc]

/-- Splitting a separator-free list yields that list as the only segment. -/
theorem jsSplitChars_of_not_mem (sep : Char) (l : List Char) (h : sep ∉ l) :
    jsSplitChars sep l = [l] := by
  induction l with
  | nil => rfl
  | cons c cs ih =>
    have hc : ¬ c = sep := fun e => h (e ▸ List.mem_cons_self c cs)
    have hcs : sep ∉ cs := fun m => h (List.mem_cons_of_mem _ m)
    simp [jsSplitChars, ih hcs, hc]

/-- Splitting at the first separator occurrence detaches the prefix. -/
theorem jsSplitChars_append_sep (sep : Char) :
    ∀ (l rest : List Char), sep ∉ l →
      jsSplitChars sep (l ++ sep :: rest) = l :: jsSplitChars sep rest := by
  intro l
  induction l with
  | nil =>
    intro rest _
    simp only [List.nil_append, jsSplitChars]
    cases hr : jsSplitChars sep rest with
    | nil => exact absurd hr (jsSplitChars_ne_nil sep rest)
    | cons r rs => simp
  | cons c cs ih =>
    intro rest h
    have hc : ¬ c = sep := fun e => h (e ▸ List.mem_cons_self c cs)
    have hcs : sep ∉ cs := fun m => h (List.mem_cons_of_mem _ m)
    have ihr := ih rest hcs
    simp [jsSplitChars, ihr, hc]

/-- Consing a non-separator character extends the first segment. -/
theorem jsSplitChars_cons_ne (sep c : Char) (l : List Char) (h : ¬ c = sep)
    (r : List Char) (rs : List (List Char)) (hr : jsSplitChars sep l = r :: rs) :
    jsSplitChars sep (c :: l) = (c :: r) :: rs := by
  simp [jsSplitChars, hr, h]

/-- Head segment of a split: everything before the first separator. -/
theorem jsSplitChars_head (sep : Char) (l : List Char) :
    (jsSplitChars sep l).head? = some (l.takeWhile (fun a => a != sep)) := by
  induction l with
  | nil => rfl
  | cons c cs ih =>
    by_cases hc : c = sep
    · subst hc
      simp only [jsSplitChars]
      cases hr : jsSplitChars c cs with
      | nil => exact absurd hr (jsSplitChars_ne_nil c cs)
      | cons r rs => simp [List.takeWhile_cons]
    · simp only [jsSplitChars]
      cases hr : jsSplitChars sep cs with
      | nil => exact absurd hr (jsSplitChars_ne_nil sep cs)
      | cons r rs =>
        have hrh : r = cs.takeWhile (fun a => a != sep) := by
          have h2 := ih
          rw [hr] at h2
          simpa using h2
        simp [hc, List.takeWhile_cons, hrh]

/-- Any list containing `a` splits at the first occurrence of `a`. -/
theorem exists_split_first (a : Char) (l : List Char) (h : a ∈ l) :
    ∃ pre post, l = pre ++ a :: post ∧ a ∉ pre := by
  induction l with
  | nil => cases h
  | cons c cs ih =>
    by_cases hc : c = a
    · exact ⟨[], cs, by rw [hc, List.nil_append], by simp⟩
    · rcases List.mem_cons.mp h with hm | hm
      · exact absurd hm.symm hc
      · obtain ⟨pre, post, he, hp⟩ := ih hm
        refine ⟨c :: pre, post, by rw [he, List.cons_append], ?_⟩
        intro hm2
        rcases List.mem_cons.mp hm2 with e | e
        · exact hc e.symm
        · exact hp e

/-- Two separator-free prefixes followed by the separator coincide whenever
one full list is a prefix of the other. -/
theorem pre_sep_unique (sep : Char) (a : List Char) :
    ∀ (b x y : List Char), sep ∉ a → sep ∉ b →
      (a ++ sep :: x) <+: (b ++ sep :: y) → a = b := by
  induction a with
  | nil =>
    intro b x y _ hb hp
    obtain ⟨t, ht⟩ := hp
    cases b with
    | nil => rfl
    | cons d b' =>
      simp only [List.nil_append, List.cons_append] at ht
      have hd : sep = d := by injection ht
      exact absurd (by rw [hd]; exact List.mem_cons_self d b') hb
  | cons c a' ih =>
    intro b x y ha hb hp
    obtain ⟨t, ht⟩ := hp
    cases b with
    | nil =>
      simp only [List.cons_append, List.nil_append] at ht
      have hc : c = sep := by injection ht
      exact absurd (by rw [← hc]; exact List.mem_cons_self c a') ha
    | cons d b' =>
      simp only [List.cons_append] at ht
      injection ht with h1 h2
      subst h1
      have ha' : sep ∉ a' := fun m => ha (List.mem_cons_of_mem _ m)
      have hb' : sep ∉ b' := fun m => hb (List.mem_cons_of_mem _ m)
      rw [ih b' x y ha' hb' ⟨t, by simpa [List.append_assoc] using h2⟩]

/-- Trimming is a sublist operation. -/
theorem jsTrimChars_sublist (cs : List Char) : List.Sublist (jsTrimChars cs) cs := by
  have d1 : List.Sublist (cs.dropWhile jsWhitespace) cs := List.dropWhile_sublist _
  have d2 : List.Sublist ((cs.dropWhile jsWhitespace).reverse.dropWhile jsWhitespace)
      (cs.dropWhile jsWhitespace).reverse := List.dropWhile_sublist _
  have d3 := d2.reverse
  rw [List.reverse_reverse] at d3
  exact d3.trans d1

/-- Trimming drops a leading space. -/
theorem jsTrimChars_cons_space (e : List Char) :
    jsTrimChars (' ' :: e) = jsTrimChars e := by
  have hws : jsWhitespace ' ' = true := by decide
  simp [jsTrimChars, List.dropWhile_cons, hws]

/-- Trimming an entry `name=value` whose name is non-empty and
whitespace-free keeps the `name=` front intact and only right-trims the
value. -/
theorem jsTrimChars_name_value (n v : List Char)
    (hne : n ≠ []) (hws : ∀ c ∈ n, jsWhitespace c = false) :
    jsTrimChars (n ++ '=' :: v)
      = n ++ '=' :: (v.reverse.dropWhile jsWhitespace).reverse := by
  unfold jsTrimChars
  have hleft : (n ++ '=' :: v).dropWhile jsWhitespace = n ++ '=' :: v := by
    cases n with
    | nil => exact absurd rfl hne
    | cons c n' =>
      have hcf : jsWhitespace c = false := hws c (List.mem_cons_self c n')
      simp [List.dropWhile_cons, hcf]
  rw [hleft]
  have hrev : (n ++ '=' :: v).reverse = v.reverse ++ '=' :: n.reverse := by
    simp [List.reverse_append]
  rw [hrev, List.dropWhile_append]
  have heqf : ('=' :: n.reverse).dropWhile jsWhitespace = '=' :: n.reverse := by
    simp [List.dropWhile_cons, show jsWhitespace '=' = false from by decide]
  by_cases he : (v.reverse.dropWhile jsWhitespace).isEmpty
  · rw [if_pos he, heqf]
    rw [List.isEmpty_iff.mp he]
    simp
  · rw [if_neg he, List.reverse_append]
    simp

/-- Distinct strings have distinct character lists. -/
theorem string_data_ne (a b : String) (h : a ≠ b) : a.data ≠ b.data := by
  intro hd
  apply h
  cases a
  cases b
  exact congrArg String.mk hd

/-- Unpacking of `validCookieName`. -/
theorem validCookieName_props (n : String) (h : validCookieName n = true) :
    n.data ≠ [] ∧ ∀ c ∈ n.data, c ≠ '=' ∧ c ≠ ';' ∧ jsWhitespace c = false := by
  rw [validCookieName, Bool.and_eq_true] at h
  obtain ⟨h1, h2⟩ := h
  refine ⟨by simpa using h1, ?_⟩
  intro c hc
  have h3 := List.all_eq_true.mp h2 c hc
  simp only [Bool.and_eq_true, bne_iff_ne, ne_eq, Bool.not_eq_true'] at h3
  exact ⟨h3.1.1, h3.1.2, h3.2⟩

/-- A well-formed serialised cookie entry contains no ";". -/
theorem semi_not_mem_cookiePair (c : String × String)
    (h1 : validCookieName c.1 = true) (h2 : validCookieValue c.2 = true) :
    ';' ∉ cookiePairChars c := by
  intro hm
  rcases List.mem_append.mp hm with hm | hm
  · exact ((validCookieName_props c.1 h1).2 ';' hm).2.1 rfl
  · rcases List.mem_cons.mp hm with he | hm
    · exact absurd he (by decide)
    · have h3 := List.all_eq_true.mp h2 ';' hm
      simp at h3

/-- An entry `name=value` whose valid name differs from "token" never
matches the accessor's predicate. -/
theorem entry_not_match (n v : List Char)
    (hne : n ≠ []) (hws : ∀ c ∈ n, jsWhitespace c = false)
    (hmem : '=' ∉ n) (hnot : n ≠ "token".data) :
    jsStartsWithChars "token=".data (jsTrimChars (n ++ '=' :: v)) = false := by
  rw [jsTrimChars_name_value n v hne hws]
  by_contra hb
  rw [Bool.not_eq_false, jsStartsWithChars, List.isPrefixOf_iff_prefix] at hb
  have hsplit : "token=".data = "token".data ++ '=' :: ([] : List Char) := by decide
  rw [hsplit] at hb
  exact hnot (pre_sep_unique '=' "token".data n [] _ (by decide) hmem hb).symm

/-- Entries of the serialised jar: the first entry verbatim, later entries
with the leading space introduced by the "; " separator. -/
def jarEntries : CookieJar → List (List Char)
  | [] => [[]]
  | c :: cs => cookiePairChars c :: cs.map (fun e => ' ' :: cookiePairChars e)

/-- Splitting the serialised well-formed jar on ";" recovers the entries. -/
theorem split_serializeJar (jar : CookieJar) (hwf : wfJar jar = true) :
    jsSplitChars ';' (serializeJarChars jar) = jarEntries jar := by
  induction jar with
  | nil => rfl
  | cons c cs ih =>
    rw [wfJar, List.all_cons, Bool.and_eq_true] at hwf
    obtain ⟨hc, hcs⟩ := hwf
    rw [Bool.and_eq_true] at hc
    have hsemi : ';' ∉ cookiePairChars c := semi_not_mem_cookiePair c hc.1 hc.2
    cases cs with
    | nil =>
      simp only [serializeJarChars]
      rw [jsSplitChars_of_not_mem ';' _ hsemi]
      rfl
    | cons c2 cs2 =>
      simp only [serializeJarChars]
      rw [jsSplitChars_append_sep ';' _ _ hsemi]
      have ihr := ih hcs
      rw [jarEntries] at ihr
      rw [jsSplitChars_cons_ne ';' ' ' _ (by decide) _ _ ihr]
      rfl

/-- After logout expires the `token` cookie, the accessor reads the
serialised jar as having no token: every remaining entry has a name other
than "token", so no ";"-separated entry's trimmed form starts with
"token=". -/
theorem safeGetToken_expire (jar : CookieJar) (hwf : wfJar jar = true) :
    safeGetToken (serializeJar (expireCookie "token" jar)) = none := by
  have hwf' : wfJar (expireCookie "token" jar) = true := by
    rw [wfJar, List.all_eq_true] at hwf ⊢
    intro x hx
    exact hwf x (List.mem_of_mem_filter hx)
  have hnames : ∀ x ∈ expireCookie "token" jar, x.1 ≠ "token" := by
    intro x hx
    have hfx := List.of_mem_filter hx
    simpa using hfx
  have hfind : (jsSplitChars ';' (serializeJar (expireCookie "token" jar)).data).find?
      (fun e => jsStartsWithChars "token=".data (jsTrimChars e)) = none := by
    rw [List.find?_eq_none]
    intro e he
    rw [show (serializeJar (expireCookie "token" jar)).data
        = serializeJarChars (expireCookie "token" jar) from rfl] at he
    rw [split_serializeJar _ hwf'] at he
    simp only [Bool.not_eq_true]
    cases hjar : expireCookie "token" jar with
    | nil =>
      rw [hjar] at he
      simp only [jarEntries, List.mem_singleton] at he
      rw [he]
      decide
    | cons c cs =>
      rw [hjar] at he
      simp only [jarEntries, List.mem_cons] at he
      have hprops : ∀ x ∈ expireCookie "token" jar,
          x.1.data ≠ [] ∧ (∀ ch ∈ x.1.data, jsWhitespace ch = false)
            ∧ '=' ∉ x.1.data ∧ x.1.data ≠ "token".data := by
        intro x hx
        have hv : validCookieName x.1 = true := by
          rw [wfJar, List.all_eq_true] at hwf'
          exact ((Bool.and_eq_true _ _).mp (hwf' x hx)).1
        obtain ⟨hd1, hd2⟩ := validCookieName_props x.1 hv
        refine ⟨hd1, fun ch hch => (hd2 ch hch).2.2, ?_, ?_⟩
        · intro hm
          exact (hd2 '=' hm).1 rfl
        · exact string_data_ne x.1 "token" (hnames x hx)
      rcases he with he | he
      · obtain ⟨hd1, hd2, hd3, hd4⟩ := hprops c (hjar ▸ List.mem_cons_self c cs)
        rw [he, cookiePairChars]
        exact entry_not_match c.1.data c.2.data hd1 hd2 hd3 hd4
      · obtain ⟨x, hxmem, hxe⟩ := List.mem_map.mp he
        obtain ⟨hd1, hd2, hd3, hd4⟩ :=
          hprops x (hjar ▸ List.mem_cons_of_mem c hxmem)
        rw [← hxe, jsTrimChars_cons_space, cookiePairChars]
        exact entry_not_match x.1.data x.2.data hd1 hd2 hd3 hd4
  simp only [safeGetToken, hfind]

/-- C8 counterexample: the middleware's redirect of token-less `/dashboard`
requests does not cover every such request — the prefetch skip at the top
of `middleware.ts` returns `next` for any request bearing the
`x-middleware-prefetch` header, before the token check ever runs, so a
token-less `/dashboard` request with that header is not redirected. -/
theorem prefetch_dashboard_not_redirected :
    middleware ⟨true, none, "/dashboard"⟩ = MiddlewareResult.next
    ∧ middleware ⟨true, none, "/dashboard"⟩ ≠ MiddlewareResult.redirect "/" := by
  constructor <;> decide

/-- C8 (amended): logout writes an immediately-expired `token` cookie
scoped to "/" (so, for every well-formed jar, both the middleware's
cookie lookup and the client accessor's read of the serialised
`document.cookie` return absent afterwards) and navigates to "/"; and the
middleware redirects every request for a `/dashboard` path without a
token cookie to the unauthenticated entry point "/", except requests
bearing the `x-middleware-prefetch` header, which pass through
unredirected. -/
theorem handleLogout_spec (env : DashboardEnv) (req : MiddlewareRequest)
    (hwf : wfJar env.jar = true) :
    (handleLogout env).route = "/"
    ∧ jarGet "token" (handleLogout env).jar = none
    ∧ safeGetToken (serializeJar (handleLogout env).jar) = none
    ∧ (req.prefetchHeader = false → req.tokenCookie = none →
        jsStartsWithChars "/dashboard".data req.pathname.data = true →
        middleware req = MiddlewareResult.redirect "/") := by
  refine ⟨rfl, ?_, safeGetToken_expire env.jar hwf, ?_⟩
  · have hfind : (expireCookie "token" env.jar).find? (fun c => c.1 == "token") = none := by
      rw [List.find?_eq_none]
      intro x hx
      have hfx := List.of_mem_filter hx
      simpa using hfx
    simp [jarGet, handleLogout, hfind]
  · intro h1 h2 h3
    simp [middleware, h1, h2, h3]

/-- Witness for C8 at a concrete jar and a concrete dashboard request. -/
theorem handleLogout_spec_witness :
    wfJar [("token", "abc123"), ("theme", "dark")] = true
    ∧ safeGetToken (serializeJar
        (handleLogout ⟨[("token", "abc123"), ("theme", "dark")], "/dashboard"⟩).jar) = none
    ∧ middleware ⟨false, none, "/dashboard/bookings"⟩ = MiddlewareResult.redirect "/" := by
  refine ⟨by decide, ?_, ?_⟩
  · exact (handleLogout_spec ⟨[("token", "abc123"), ("theme", "dark")], "/dashboard"⟩
      ⟨false, none, "/dashboard/bookings"⟩ (by decide)).2.2.1
  · exact (handleLogout_spec ⟨[("token", "abc123"), ("theme", "dark")], "/dashboard"⟩
      ⟨false, none, "/dashboard/bookings"⟩ (by decide)).2.2.2 rfl rfl (by decide)

/-- C9: the cookie accessor is total, and behaves as claimed: it returns
`none` exactly when no ";"-separated entry of the cookie string has a
trimmed form starting with "token="; and when the first such entry exists
it splits as a "="-free prefix, the first "=", and a remainder, and the
accessor returns exactly the remainder truncated at the next "=" (the
segment of the entry between its first and second "="), which in
particular is always a present value — the accessor never fails. -/
theorem safeGetToken_spec (s : String) :
    (safeGetToken s = none ↔
      ∀ c ∈ jsSplitChars ';' s.data,
        jsStartsWithChars "token=".data (jsTrimChars c) = false)
    ∧ (∀ c, (jsSplitChars ';' s.data).find?
          (fun e => jsStartsWithChars "token=".data (jsTrimChars e)) = some c →
        ∃ pre post, c = pre ++ '=' :: post ∧ '=' ∉ pre
          ∧ safeGetToken s
              = some (List.asString (post.takeWhile (fun a => a != '=')))) := by
  have hpart2 : ∀ c, (jsSplitChars ';' s.data).find?
      (fun e => jsStartsWithChars "token=".data (jsTrimChars e)) = some c →
      ∃ pre post, c = pre ++ '=' :: post ∧ '=' ∉ pre
        ∧ safeGetToken s
            = some (List.asString (post.takeWhile (fun a => a != '='))) := by
    intro c hc
    have hmatch : jsStartsWithChars "token=".data (jsTrimChars c) = true := by
      have h0 := List.find?_some hc
      simpa using h0
    have hmem : '=' ∈ c := by
      have hpre : "token=".data <+: jsTrimChars c := by
        rw [jsStartsWithChars] at hmatch
        exact List.isPrefixOf_iff_prefix.mp hmatch
      have h1 : '=' ∈ jsTrimChars c := hpre.subset (by decide)
      exact (jsTrimChars_sublist c).mem h1
    obtain ⟨pre, post, hdec, hpre2⟩ := exists_split_first '=' c hmem
    refine ⟨pre, post, hdec, hpre2, ?_⟩
    simp only [safeGetToken, hc]
    rw [hdec, jsSplitChars_append_sep '=' pre post hpre2]
    have hhead := jsSplitChars_head '=' post
    cases hp : jsSplitChars '=' post with
    | nil => exact absurd hp (jsSplitChars_ne_nil '=' post)
    | cons r rs =>
      rw [hp] at hhead
      simp only [List.head?_cons, Option.some.injEq] at hhead
      simp [hhead]
  refine ⟨⟨?_, ?_⟩, hpart2⟩
  · intro hnone
    by_contra hq
    push_neg at hq
    obtain ⟨c, hcm, hne⟩ := hq
    have hsome : ((jsSplitChars ';' s.data).find?
        (fun e => jsStartsWithChars "token=".data (jsTrimChars e))).isSome := by
      rw [List.find?_isSome]
      exact ⟨c, hcm, by simpa using hne⟩
    obtain ⟨c', hc'⟩ := Option.isSome_iff_exists.mp hsome
    obtain ⟨pre, post, _, _, hres⟩ := hpart2 c' hc'
    rw [hres] at hnone
    cases hnone
  · intro hall
    have hfind : (jsSplitChars ';' s.data).find?
        (fun e => jsStartsWithChars "token=".data (jsTrimChars e)) = none := by
      rw [List.find?_eq_none]
      intro x hx
      simp [hall x hx]
    simp only [safeGetToken, hfind]

/-- Witness for C9 on a concrete cookie string whose token value contains
"=": the accessor finds the entry and truncates the value at the second
"=". -/
theorem safeGetToken_spec_witness :
    safeGetToken "a=1; token=xy=z; b=2" = some "xy"
    ∧ (safeGetToken "a=1; token=xy=z; b=2").isSome = true := by
  refine ⟨by decide, ?_⟩
  obtain ⟨pre, post, _, _, hres⟩ :=
    (safeGetToken_spec "a=1; token=xy=z; b=2").2 " token=xy=z".data (by decide)
  rw [hres]
  rfl
